import Mathlib

/-!
# Verification of the Aurora loopback streaming/verification harness

Shallow embedding of the core of the `rfnoc-oot-blocks` example scripts:

* `common.py` — the `NullSrcSinkReferenceData` reference-sequence generator;
* `aurora_loopback_host.py` — the transmit pump (`tx_function`), the receive
  pump (`rx_function`) and the mirror-mode verifier (`compare`);
* `aurora_loopback_nullsrcsink.py` — the reference-mode verifier
  (`_verify_data`).

Machine integers are modelled as `Nat` with explicit `% 2 ^ 32` where the
Python code uses `np.uint32` wrap-around arithmetic, and as `Int` where the
Python code uses unbounded `int` values that may go negative
(the generator's `mask`).
-/

set_option maxRecDepth 8000

namespace RfnocExamples

/-! ## Bit-manipulation helper lemmas -/

/-- Shifting left distributes over bitwise and. -/
theorem and_shiftLeft_shiftLeft (a b n : Nat) :
    (a <<< n) &&& (b <<< n) = (a &&& b) <<< n := by
  apply Nat.eq_of_testBit_eq
  intro i
  simp only [Nat.testBit_and, Nat.testBit_shiftLeft]
  by_cases h : n ≤ i <;> simp [h]

/-- A 32-bit value whose low 16 bits are zero is unchanged by `&&& 0xFFFF0000`. -/
theorem and_high_mask_of_aligned {y : Nat} (h0 : y % 65536 = 0) (h1 : y < 4294967296) :
    y &&& 0xFFFF0000 = y := by
  have hy : y = (y / 65536) <<< 16 := by
    rw [Nat.shiftLeft_eq]
    omega
  have hmask : (0xFFFF0000 : Nat) = 65535 <<< 16 := by norm_num [Nat.shiftLeft_eq]
  have hlt : y / 65536 < 65536 := by omega
  rw [hy, hmask, and_shiftLeft_shiftLeft]
  have h65535 : (65535 : Nat) = 2 ^ 16 - 1 := by norm_num
  rw [h65535, Nat.and_pow_two_sub_one_eq_mod, Nat.mod_eq_of_lt (by omega)]

/-- `&&& 0xFFFF` is `% 2 ^ 16`. -/
theorem and_low_mask (x : Nat) : x &&& 0x0000FFFF = x % 65536 := by
  have h : (0x0000FFFF : Nat) = 2 ^ 16 - 1 := by norm_num
  rw [h, Nat.and_pow_two_sub_one_eq_mod]

/-- Bitwise or of a 16-bit-aligned high part and a low part below `2 ^ 16`
is their sum. -/
theorem lor_high_low (hpart lpart : Nat) (h : lpart < 65536) :
    (65536 * hpart) ||| lpart = 65536 * hpart + lpart := by
  have := Nat.mul_add_lt_is_or (i := 16) (b := lpart) (by norm_num; omega) hpart
  norm_num at this ⊢
  omega

/-! ## `common.py`: the reference-sequence generator

```python
class NullSrcSinkReferenceData:
    def __init__(self, words_per_line):
        self.mask = words_per_line - 1

    def __iter__(self):
        self.iteration = 0
        self.line = 0
        self.hi = np.uint32(0x00000000)
        self.lo = np.uint32(0x0000FFFF)
        return self

    def __next__(self):
        retval = self.hi | self.lo
        if (self.iteration & self.mask) == self.mask:
            self.line += 1
            self.hi += 0x00010000
            self.hi &= 0xFFFF0000
            self.lo -= 0x00000001
            self.lo &= 0x0000FFFF
        self.iteration += 1
        return retval
```
-/

/-- The construction-time state of `NullSrcSinkReferenceData`: only the mask.
`mask` is a Python `int` (it is `-1` when `words_per_line` is `0`), hence `Int`. -/
structure NullSrcSinkReferenceData where
  mask : Int
  deriving Repr, DecidableEq

/-- `NullSrcSinkReferenceData.__init__`: stores `words_per_line - 1` as the mask. -/
def NullSrcSinkReferenceData.init (wordsPerLine : Int) : NullSrcSinkReferenceData :=
  { mask := wordsPerLine - 1 }

/-- Error taxonomy for construction, from the specification (`InvalidConfiguration`). -/
inductive ConfigError where
  | invalidConfiguration
  deriving Repr, DecidableEq

/-- The observable behaviour of the Python constructor call
`NullSrcSinkReferenceData(words_per_line)`: it either raises or returns the
constructed object.  The source constructor consists of the single statement
`self.mask = words_per_line - 1` and has no failure path, so this always
returns `ok`. -/
def NullSrcSinkReferenceData.construct (wordsPerLine : Int) :
    Except ConfigError NullSrcSinkReferenceData :=
  .ok (NullSrcSinkReferenceData.init wordsPerLine)

/-- The iterator state set up by `__iter__`:
`(iteration, line, hi, lo) = (0, 0, 0x00000000, 0x0000FFFF)`.
`iteration` and `line` are Python `int`s that start at `0` and only ever
increase, hence `Nat`; `hi` and `lo` are `np.uint32`, hence `Nat` kept below
`2 ^ 32` by explicit wrap-around. -/
structure RefIter where
  mask : Int
  iteration : Nat
  line : Nat
  hi : Nat
  lo : Nat
  deriving Repr, DecidableEq

/-- `__iter__`: reset the iteration state. -/
def NullSrcSinkReferenceData.iter (g : NullSrcSinkReferenceData) : RefIter :=
  { mask := g.mask, iteration := 0, line := 0, hi := 0x00000000, lo := 0x0000FFFF }

/-- The line-change update of `__next__` (the body of the `if`):
`hi += 0x00010000; hi &= 0xFFFF0000; lo -= 1; lo &= 0x0000FFFF`
in wrapping `uint32` arithmetic. -/
def lineAdvance (hi lo : Nat) : Nat × Nat :=
  (((hi + 0x00010000) % 2 ^ 32) &&& 0xFFFF0000,
   ((lo + (2 ^ 32 - 1)) % 2 ^ 32) &&& 0x0000FFFF)

/-- `__next__`: emit `hi | lo` (computed from the pre-update state), advance
the line counters when `(iteration & mask) == mask`, and always advance
`iteration`. -/
def refNext (s : RefIter) : Nat × RefIter :=
  if Int.land (s.iteration : Int) s.mask = s.mask then
    (s.hi ||| s.lo,
     { mask := s.mask, iteration := s.iteration + 1, line := s.line + 1,
       hi := (lineAdvance s.hi s.lo).1, lo := (lineAdvance s.hi s.lo).2 })
  else
    (s.hi ||| s.lo,
     { mask := s.mask, iteration := s.iteration + 1, line := s.line,
       hi := s.hi, lo := s.lo })

/-- The iterator state after `n` calls to `__next__` on a fresh iterator. -/
def refStateAt (g : NullSrcSinkReferenceData) : Nat → RefIter
  | 0 => g.iter
  | n + 1 => (refNext (refStateAt g n)).2

/-- The word produced by the `n`-th (0-based) call to `__next__`. -/
def refWordAt (g : NullSrcSinkReferenceData) (n : Nat) : Nat :=
  (refNext (refStateAt g n)).1

/-- The first `n` words produced by a fresh iterator. -/
def refWords (g : NullSrcSinkReferenceData) (n : Nat) : List Nat :=
  (List.range n).map (refWordAt g)

/-! ### Basic facts about the generator step -/

theorem refNext_fst (s : RefIter) : (refNext s).1 = s.hi ||| s.lo := by
  unfold refNext
  split <;> rfl

theorem refNext_snd (s : RefIter) :
    (refNext s).2 =
      if Int.land (s.iteration : Int) s.mask = s.mask then
        { mask := s.mask, iteration := s.iteration + 1, line := s.line + 1,
          hi := (lineAdvance s.hi s.lo).1, lo := (lineAdvance s.hi s.lo).2 }
      else
        { mask := s.mask, iteration := s.iteration + 1, line := s.line,
          hi := s.hi, lo := s.lo } := by
  unfold refNext
  split <;> rfl

/-- The invariant maintained by the generator state: `hi` is a 16-bit-aligned
32-bit value, `lo` is a 16-bit value, and the two 16-bit counters always sum
to `0xFFFF` modulo `2 ^ 16`. -/
def GoodState (s : RefIter) : Prop :=
  s.hi % 65536 = 0 ∧ s.hi < 4294967296 ∧ s.lo < 65536 ∧
    (s.hi / 65536 + s.lo) % 65536 = 65535

theorem goodState_init (g : NullSrcSinkReferenceData) : GoodState g.iter := by
  unfold GoodState NullSrcSinkReferenceData.iter
  norm_num

theorem goodState_step {s : RefIter} (h : GoodState s) : GoodState (refNext s).2 := by
  obtain ⟨h1, h2, h3, h4⟩ := h
  rw [refNext_snd]
  split
  · have hy0 : (s.hi + 0x00010000) % 2 ^ 32 % 65536 = 0 := by omega
    have hy1 : (s.hi + 0x00010000) % 2 ^ 32 < 4294967296 := by omega
    have hhi : (lineAdvance s.hi s.lo).1 = (s.hi + 0x00010000) % 2 ^ 32 := by
      unfold lineAdvance
      exact and_high_mask_of_aligned hy0 hy1
    have hlo : (lineAdvance s.hi s.lo).2 = (s.lo + (2 ^ 32 - 1)) % 2 ^ 32 % 65536 := by
      unfold lineAdvance
      rw [and_low_mask]
    refine ⟨?_, ?_, ?_, ?_⟩ <;> simp only [hhi, hlo] <;> omega
  · exact ⟨h1, h2, h3, h4⟩

theorem goodState_at (g : NullSrcSinkReferenceData) (n : Nat) :
    GoodState (refStateAt g n) := by
  induction n with
  | zero => exact goodState_init g
  | succ n ih => exact goodState_step ih

/-- With `words_per_line = 0` the stored mask is `-1`, and
`(iteration & -1) == -1` is false for every non-negative `iteration`, so the
line counters never advance. -/
theorem land_neg_one_ne (m : Nat) : Int.land (m : Int) (-1) ≠ (-1 : Int) := by
  have h : Int.land (m : Int) (-1) = ((Nat.ldiff m 0 : Nat) : Int) := rfl
  rw [h]
  omega

theorem refStateAt_zero_wpl (n : Nat) :
    refStateAt (NullSrcSinkReferenceData.init 0) n =
      { mask := -1, iteration := n, line := 0, hi := 0, lo := 0x0000FFFF } := by
  induction n with
  | zero => rfl
  | succ n ih =>
    show (refNext (refStateAt (NullSrcSinkReferenceData.init 0) n)).2 = _
    rw [ih, refNext_snd]
    simp only [land_neg_one_ne n, if_neg]
    simp [land_neg_one_ne n]

/-! ## Claim theorems about the reference-sequence generator -/

/-- C2 counterexample: constructing `NullSrcSinkReferenceData` with
`wordsPerLine = 0` does not fail with `InvalidConfiguration`; it succeeds and
stores `mask = -1`.  This refutes the claim that construction with zero
`wordsPerLine` fails at construction time. -/
theorem construct_zero_succeeds :
    NullSrcSinkReferenceData.construct 0 = .ok { mask := -1 } := rfl

/-- C2 (amended): construction never fails — for every `wordsPerLine`
(including zero) the constructor returns an object with
`mask = wordsPerLine - 1`; with `wordsPerLine = 0` the resulting generator
degenerates: its line counters never advance and it emits `0x0000FFFF`
forever. -/
theorem construct_never_fails :
    (∀ w : Int, NullSrcSinkReferenceData.construct w = .ok { mask := w - 1 }) ∧
    (∀ n : Nat,
      (refStateAt (NullSrcSinkReferenceData.init 0) n).line = 0 ∧
      refWordAt (NullSrcSinkReferenceData.init 0) n = 0x0000FFFF) := by
  refine ⟨fun w => rfl, fun n => ?_⟩
  constructor
  · rw [refStateAt_zero_wpl n]
  · show (refNext (refStateAt (NullSrcSinkReferenceData.init 0) n)).1 = _
    rw [refStateAt_zero_wpl n, refNext_fst]
    simp

/-- C7: for `wordsPerLine = 2`, the first six words produced by a freshly
iterated generator are
`[0x0000FFFF, 0x0000FFFF, 0x0001FFFE, 0x0001FFFE, 0x0002FFFD, 0x0002FFFD]`. -/
theorem refWords_first_six :
    refWords (NullSrcSinkReferenceData.init 2) 6 =
      [0x0000FFFF, 0x0000FFFF, 0x0001FFFE, 0x0001FFFE, 0x0002FFFD, 0x0002FFFD] := by
  decide

/-- C8: the counters wrap modularly, not saturating: a line advance from
`hi = 0xFFFF0000` yields `hi = 0x00000000`, and a line advance from
`lo = 0x00000000` yields `lo = 0x0000FFFF`, whatever the other counter is. -/
theorem lineAdvance_wraparound (hi lo : Nat) :
    (lineAdvance 0xFFFF0000 lo).1 = 0x00000000 ∧
    (lineAdvance hi 0x00000000).2 = 0x0000FFFF := by
  constructor
  · show ((0xFFFF0000 + 0x00010000) % 2 ^ 32) &&& 0xFFFF0000 = 0x00000000
    decide
  · show ((0x00000000 + (2 ^ 32 - 1)) % 2 ^ 32) &&& 0x0000FFFF = 0x0000FFFF
    decide

/-- C10: for every power-of-two `wordsPerLine = 2 ^ k` and every number `n` of
production steps from the initial state, the state satisfies: the low 16 bits
of `hi` are zero, the high bits of `lo` above bit 15 are zero, and
`(hi >>> 16) + lo ≡ 0xFFFF (mod 2 ^ 16)`; consequently the word `w` emitted at
step `n` satisfies `(w >>> 16) + (w &&& 0xFFFF) ≡ 0xFFFF (mod 2 ^ 16)`. -/
theorem refIter_self_checking (k n : Nat) :
    (refStateAt (NullSrcSinkReferenceData.init (2 ^ k : Int)) n).hi &&& 0x0000FFFF = 0 ∧
    (refStateAt (NullSrcSinkReferenceData.init (2 ^ k : Int)) n).lo >>> 16 = 0 ∧
    ((refStateAt (NullSrcSinkReferenceData.init (2 ^ k : Int)) n).hi >>> 16 +
      (refStateAt (NullSrcSinkReferenceData.init (2 ^ k : Int)) n).lo) % 65536 = 65535 ∧
    (refWordAt (NullSrcSinkReferenceData.init (2 ^ k : Int)) n >>> 16 +
      (refWordAt (NullSrcSinkReferenceData.init (2 ^ k : Int)) n &&& 0x0000FFFF)) % 65536
      = 65535 := by
  obtain ⟨h1, h2, h3, h4⟩ := goodState_at (NullSrcSinkReferenceData.init (2 ^ k : Int)) n
  set s := refStateAt (NullSrcSinkReferenceData.init (2 ^ k : Int)) n with hs
  have hshift : ∀ x : Nat, x >>> 16 = x / 65536 := by
    intro x
    rw [Nat.shiftRight_eq_div_pow]
  have hword : refWordAt (NullSrcSinkReferenceData.init (2 ^ k : Int)) n = s.hi + s.lo := by
    show (refNext s).1 = _
    rw [refNext_fst]
    have hrep : s.hi = 65536 * (s.hi / 65536) := by omega
    calc s.hi ||| s.lo = 65536 * (s.hi / 65536) ||| s.lo := by rw [← hrep]
      _ = 65536 * (s.hi / 65536) + s.lo := lor_high_low _ _ h3
      _ = s.hi + s.lo := by omega
  refine ⟨?_, ?_, ?_, ?_⟩
  · rw [and_low_mask]
    exact h1
  · rw [hshift]
    omega
  · rw [hshift]
    exact h4
  · rw [hword, and_low_mask, hshift]
    have e1 : (s.hi + s.lo) / 65536 = s.hi / 65536 := by omega
    have e2 : (s.hi + s.lo) % 65536 = s.lo := by omega
    rw [e1, e2]
    exact h4

/-! ## `aurora_loopback_nullsrcsink.py`: the reference-mode verifier

```python
def _verify_data(rx_data):
    null_ref = iter(NullSrcSinkReferenceData(words_per_line=2))
    for dat in rx_data:
        reference = next(null_ref)
        if dat != reference:
            return (
                False,
                f"mismatch in line {null_ref.line:02d} expected: ..., received: ...",
            )
    return True, ""
```
-/

/-- The observable result of `_verify_data`: the boolean together with the
values interpolated into the failure message (`null_ref.line`, the expected
word and the received word). -/
inductive VerifyResult where
  | ok
  | mismatch (line : Nat) (expected : Nat) (received : Nat)
  deriving Repr, DecidableEq

/-- The `for dat in rx_data` loop of `_verify_data`, carrying the generator
iterator state. -/
def verifyLoop : RefIter → List Nat → VerifyResult
  | _, [] => .ok
  | s, dat :: rest =>
    if dat ≠ (refNext s).1 then
      .mismatch (refNext s).2.line (refNext s).1 dat
    else
      verifyLoop (refNext s).2 rest

/-- `_verify_data`: verify a captured word sequence against a freshly
constructed `NullSrcSinkReferenceData(words_per_line=2)` iterator. -/
def verifyData (rxData : List Nat) : VerifyResult :=
  verifyLoop (NullSrcSinkReferenceData.init 2).iter rxData

/-- Modelled from the spec: "first mismatch is reported with the line index".
The line index of the word at 0-based offset `i` when each line comprises two
words is `i / 2`. -/
def wordLineIndex (i : Nat) : Nat := i / 2

/-! ### Facts about the `wordsPerLine = 2` iterator state -/

theorem land_one (m : Nat) : Int.land (m : Int) 1 = ((m &&& 1 : Nat) : Int) := rfl

theorem refStateAt_mask (g : NullSrcSinkReferenceData) (n : Nat) :
    (refStateAt g n).mask = g.mask := by
  induction n with
  | zero => rfl
  | succ n ih =>
    show (refNext (refStateAt g n)).2.mask = g.mask
    rw [refNext_snd]
    split <;> simpa using ih

theorem refStateAt_iteration (g : NullSrcSinkReferenceData) (n : Nat) :
    (refStateAt g n).iteration = n := by
  induction n with
  | zero => rfl
  | succ n ih =>
    show (refNext (refStateAt g n)).2.iteration = n + 1
    rw [refNext_snd]
    split <;> simpa using ih

theorem land_one_iff (n : Nat) : Int.land (n : Int) 1 = 1 ↔ n % 2 = 1 := by
  rw [land_one, Nat.and_one_is_mod]
  exact_mod_cast Nat.cast_inj (R := Int)

theorem refStateAt_two_line (n : Nat) :
    (refStateAt (NullSrcSinkReferenceData.init 2) n).line = n / 2 := by
  induction n with
  | zero => rfl
  | succ n ih =>
    show (refNext (refStateAt (NullSrcSinkReferenceData.init 2) n)).2.line = (n + 1) / 2
    rw [refNext_snd, refStateAt_mask, refStateAt_iteration]
    have hmask : (NullSrcSinkReferenceData.init 2).mask = 1 := rfl
    rw [hmask]
    by_cases hp : n % 2 = 1
    · rw [if_pos ((land_one_iff n).mpr hp)]
      show (refStateAt (NullSrcSinkReferenceData.init 2) n).line + 1 = (n + 1) / 2
      rw [ih]
      omega
    · rw [if_neg (fun h => hp ((land_one_iff n).mp h))]
      show (refStateAt (NullSrcSinkReferenceData.init 2) n).line = (n + 1) / 2
      rw [ih]
      omega

/-! ### Walking the verification loop -/

theorem verifyLoop_ok (k : Nat) (l : List Nat)
    (h : ∀ i < l.length, l.getD i 0 = refWordAt (NullSrcSinkReferenceData.init 2) (k + i)) :
    verifyLoop (refStateAt (NullSrcSinkReferenceData.init 2) k) l = .ok := by
  induction l generalizing k with
  | nil => rfl
  | cons d rest ih =>
    have hd : d = refWordAt (NullSrcSinkReferenceData.init 2) k := by
      have := h 0 (by simp)
      simpa using this
    show verifyLoop _ (d :: rest) = _
    rw [verifyLoop, if_neg (by simp [hd, refWordAt])]
    exact ih (k + 1) (fun i hi => by
      have heq := h (i + 1) (by simpa using Nat.succ_lt_succ hi)
      have hidx : k + (i + 1) = k + 1 + i := by omega
      rw [hidx] at heq
      simpa using heq)

theorem verifyLoop_mismatch (k : Nat) (l : List Nat) (i : Nat) (hi : i < l.length)
    (hpre : ∀ j < i, l.getD j 0 = refWordAt (NullSrcSinkReferenceData.init 2) (k + j))
    (hne : l.getD i 0 ≠ refWordAt (NullSrcSinkReferenceData.init 2) (k + i)) :
    verifyLoop (refStateAt (NullSrcSinkReferenceData.init 2) k) l =
      .mismatch ((refStateAt (NullSrcSinkReferenceData.init 2) (k + i + 1)).line)
        (refWordAt (NullSrcSinkReferenceData.init 2) (k + i)) (l.getD i 0) := by
  induction l generalizing k i with
  | nil => exact absurd hi (by simp)
  | cons d rest ih =>
    cases i with
    | zero =>
      show verifyLoop _ (d :: rest) = _
      rw [verifyLoop, if_pos (by simpa [refWordAt] using hne)]
      rfl
    | succ i =>
      have hd : d = refWordAt (NullSrcSinkReferenceData.init 2) k := by
        have := hpre 0 (Nat.succ_pos i)
        simpa using this
      show verifyLoop _ (d :: rest) = _
      rw [verifyLoop, if_neg (by simp [hd, refWordAt])]
      have hrec := ih (k + 1) i (by simpa using Nat.lt_of_succ_lt_succ hi)
        (fun j hj => by
          have heq := hpre (j + 1) (Nat.succ_lt_succ hj)
          have hidx : k + (j + 1) = k + 1 + j := by omega
          rw [hidx] at heq
          simpa using heq)
        (by
          have hidx : k + 1 + i = k + (i + 1) := by omega
          rw [hidx]
          simpa using hne)
      have h1 : k + 1 + i + 1 = k + (i + 1) + 1 := by omega
      have h2 : k + 1 + i = k + (i + 1) := by omega
      rw [h1, h2] at hrec
      simpa using hrec

/-! ## Claim theorems about the reference-mode verifier -/

/-- C9 counterexample: on the capture `[0x0000FFFF, 0xDEAD]` the first
mismatching word is at offset 1, which belongs to line `wordLineIndex 1 = 0`,
but `_verify_data` reports line `1` (the generator's `line` counter after
producing the expected word), so the reported value is not the line index of
the mismatching word. -/
theorem verifyData_line_off_by_one :
    verifyData [0x0000FFFF, 0xDEAD] = .mismatch 1 0x0000FFFF 0xDEAD ∧
    wordLineIndex 1 ≠ 1 := by
  constructor
  · decide
  · decide

/-- C9 (amended): `_verify_data` with `words_per_line = 2` compares the
captured words one at a time against a fresh generator: if all captured
words match, it returns success; otherwise it stops at the first mismatching
word (offset `i`, later words not examined) and reports the generator's line
counter after producing the expected word — `(i + 1) / 2`, which is the
mismatching word's line index `i / 2` for the first word of a line and
`i / 2 + 1` for the second — together with the expected and received
values. -/
theorem verifyData_fail_fast (rx : List Nat) :
    ((∀ i < rx.length, rx.getD i 0 = refWordAt (NullSrcSinkReferenceData.init 2) i) →
      verifyData rx = .ok) ∧
    (∀ i < rx.length,
      (∀ j < i, rx.getD j 0 = refWordAt (NullSrcSinkReferenceData.init 2) j) →
      rx.getD i 0 ≠ refWordAt (NullSrcSinkReferenceData.init 2) i →
      verifyData rx = .mismatch ((i + 1) / 2)
        (refWordAt (NullSrcSinkReferenceData.init 2) i) (rx.getD i 0)) := by
  constructor
  · intro h
    exact verifyLoop_ok 0 rx (fun i hi => by simpa using h i hi)
  · intro i hi hpre hne
    have hbody := verifyLoop_mismatch 0 rx i hi
      (fun j hj => by simpa using hpre j hj) (by simpa using hne)
    show verifyLoop (refStateAt (NullSrcSinkReferenceData.init 2) 0) rx = _
    rw [hbody, refStateAt_two_line (0 + i + 1)]
    norm_num

/-- Witness for C9: instantiating the amended theorem on the concrete capture
`[0x0000FFFF, 0]`, whose first mismatch is at offset 1. -/
theorem verifyData_fail_fast_witness :
    verifyData [0x0000FFFF, 0] = .mismatch 1 0x0000FFFF 0 := by
  have := (verifyData_fail_fast [0x0000FFFF, 0]).2 1 (by decide)
    (by decide) (by decide)
  simpa using this

/-! ## `aurora_loopback_host.py`: the mirror-mode verifier

```python
def compare(reference_file, received_file, num_samples_total, num_iterations,
            buffer_size, dtype):
    processed_samples = 0
    iteration = 0
    while processed_samples < num_samples_total:
        reference = np.fromfile(reference_file, count=buffer_size, dtype=dtype)
        if len(reference) == 0:
            if iteration < num_iterations:
                reference_file.seek(0)
                iteration += 1
                continue
            raise EOFError(
                f"Reference file {reference_file.name} reached EOF early, "
                f"iteration {iteration}, number of processed samples: {processed_samples}")
        received = np.fromfile(received_file, count=buffer_size, dtype=dtype)
        if len(received) == 0:
            raise EOFError(
                f"Received file {received_file.name} reached EOF early, "
                f"number of processed samples {processed_samples}")
        assert np.array_equal(reference, received), (
            f"array mismatch - number of processed samples: {processed_samples}, "
            f"reference data: {reference}, received data: {received}")
        processed_samples += len(reference)
```

A file opened for reading is a name, its full contents (for `seek(0)`), and
the contents from the current cursor position on; `np.fromfile(count=n)`
reads up to `n` samples and advances the cursor.  Samples are opaque
fixed-width payload units compared only for equality, modelled as `Nat`. -/

structure DataFile where
  name : String
  full : List Nat
  rem : List Nat
  deriving Repr, DecidableEq

/-- `open(name, "rb")`: a fresh file positioned at offset 0. -/
def DataFile.openFile (name : String) (contents : List Nat) : DataFile :=
  { name := name, full := contents, rem := contents }

/-- The observable outcomes of `compare`: the two `EOFError`s and the
`AssertionError`, each carrying the values interpolated into its message. -/
inductive CompareError where
  | prematureEOFReference (fileName : String) (iteration : Nat) (processedSamples : Nat)
  | prematureEOFReceived (fileName : String) (processedSamples : Nat)
  | dataMismatch (processedSamples : Nat) (referenceData receivedData : List Nat)
  deriving Repr, DecidableEq

/-- The `while processed_samples < num_samples_total` loop of `compare`. -/
def compareLoop (referenceFile receivedFile : DataFile)
    (numSamplesTotal numIterations bufferSize : Nat)
    (processedSamples iteration : Nat) : Except CompareError Nat :=
  if hloop : processedSamples < numSamplesTotal then
    if href : (referenceFile.rem.take bufferSize).length = 0 then
      if hiter : iteration < numIterations then
        compareLoop { referenceFile with rem := referenceFile.full } receivedFile
          numSamplesTotal numIterations bufferSize processedSamples (iteration + 1)
      else
        .error (.prematureEOFReference referenceFile.name iteration processedSamples)
    else
      if hrecv : (receivedFile.rem.take bufferSize).length = 0 then
        .error (.prematureEOFReceived receivedFile.name processedSamples)
      else
        if heq : referenceFile.rem.take bufferSize = receivedFile.rem.take bufferSize then
          compareLoop { referenceFile with rem := referenceFile.rem.drop bufferSize }
            { receivedFile with rem := receivedFile.rem.drop bufferSize }
            numSamplesTotal numIterations bufferSize
            (processedSamples + (referenceFile.rem.take bufferSize).length) iteration
        else
          .error (.dataMismatch processedSamples (referenceFile.rem.take bufferSize)
            (receivedFile.rem.take bufferSize))
  else
    .ok processedSamples
  termination_by (numSamplesTotal - processedSamples, numIterations - iteration)
  decreasing_by
  · apply Prod.Lex.right
    omega
  · apply Prod.Lex.left
    omega

/-- `compare`: mirror-mode verification of two files, starting from
`processed_samples = 0`, `iteration = 0`.  The Python function returns `None`
on success; completion is modelled as `ok` carrying the final processed
count. -/
def compare (referenceFile receivedFile : DataFile)
    (numSamplesTotal numIterations bufferSize : Nat) : Except CompareError Nat :=
  compareLoop referenceFile receivedFile numSamplesTotal numIterations bufferSize 0 0

/-! ### Single-step unfoldings of the comparison loop -/

theorem compareLoop_done {ref recv : DataFile} {total numIter B p it : Nat}
    (h : ¬ p < total) :
    compareLoop ref recv total numIter B p it = .ok p := by
  rw [compareLoop, dif_neg h]

theorem compareLoop_step_rewind {ref recv : DataFile} {total numIter B p it : Nat}
    (h : p < total) (h2 : (ref.rem.take B).length = 0) (h3 : it < numIter) :
    compareLoop ref recv total numIter B p it =
      compareLoop { ref with rem := ref.full } recv total numIter B p (it + 1) := by
  rw [compareLoop, dif_pos h, dif_pos h2, dif_pos h3]

theorem compareLoop_step_refEOF {ref recv : DataFile} {total numIter B p it : Nat}
    (h : p < total) (h2 : (ref.rem.take B).length = 0) (h3 : ¬ it < numIter) :
    compareLoop ref recv total numIter B p it =
      .error (.prematureEOFReference ref.name it p) := by
  rw [compareLoop, dif_pos h, dif_pos h2, dif_neg h3]

theorem compareLoop_step_recvEOF {ref recv : DataFile} {total numIter B p it : Nat}
    (h : p < total) (h2 : ¬ (ref.rem.take B).length = 0)
    (h4 : (recv.rem.take B).length = 0) :
    compareLoop ref recv total numIter B p it =
      .error (.prematureEOFReceived recv.name p) := by
  rw [compareLoop, dif_neg h2, dif_pos h4, dif_pos h]

theorem compareLoop_step_mismatch {ref recv : DataFile} {total numIter B p it : Nat}
    (h : p < total) (h2 : ¬ (ref.rem.take B).length = 0)
    (h4 : ¬ (recv.rem.take B).length = 0)
    (h5 : ¬ ref.rem.take B = recv.rem.take B) :
    compareLoop ref recv total numIter B p it =
      .error (.dataMismatch p (ref.rem.take B) (recv.rem.take B)) := by
  rw [compareLoop, dif_neg h2, dif_neg h4, dif_neg h5, dif_pos h]

theorem compareLoop_step_advance {ref recv : DataFile} {total numIter B p it : Nat}
    (h : p < total) (h2 : ¬ (ref.rem.take B).length = 0)
    (h4 : ¬ (recv.rem.take B).length = 0)
    (h5 : ref.rem.take B = recv.rem.take B) :
    compareLoop ref recv total numIter B p it =
      compareLoop { ref with rem := ref.rem.drop B } { recv with rem := recv.rem.drop B }
        total numIter B (p + (ref.rem.take B).length) it := by
  rw [compareLoop, dif_neg h2, dif_neg h4, dif_pos h5, dif_pos h]

/-- A received file whose remaining contents are the reference's remaining
contents truncated at the chunk boundary `m * B` runs `m` equal-chunk rounds
and then hits the received-EOF branch, reporting the received file's name and
the processed count. -/
theorem compareLoop_truncated (m : Nat) : ∀ (dRem full1 full2 : List Nat)
    (n1 n2 : String) (numIter B total p it : Nat),
    1 ≤ B → p + m * B < total → total ≤ p + dRem.length →
    compareLoop ⟨n1, full1, dRem⟩ ⟨n2, full2, dRem.take (m * B)⟩
      total numIter B p it
      = .error (.prematureEOFReceived n2 (p + m * B)) := by
  induction m with
  | zero =>
    intro dRem full1 full2 n1 n2 numIter B total p it hB hlt hle
    rw [compareLoop_step_recvEOF (by omega)
      (by
        show ¬ (dRem.take B).length = 0
        simp only [List.length_take]
        omega)
      (by
        show ((dRem.take (0 * B)).take B).length = 0
        simp)]
    simp
  | succ m ih =>
    intro dRem full1 full2 n1 n2 numIter B total p it hB hlt hle
    rw [Nat.succ_mul] at hlt ⊢
    have hlen : dRem.length > m * B + B := by omega
    have hchunk : (dRem.take (m * B + B)).take B = dRem.take B := by
      rw [List.take_take]
      congr 1
      omega
    rw [compareLoop_step_advance (by omega)
      (by
        show ¬ (dRem.take B).length = 0
        simp only [List.length_take]
        omega)
      (by
        show ¬ ((dRem.take (m * B + B)).take B).length = 0
        rw [hchunk]
        simp only [List.length_take]
        omega)
      (by
        show dRem.take B = (dRem.take (m * B + B)).take B
        rw [hchunk])]
    show compareLoop ⟨n1, full1, dRem.drop B⟩
        ⟨n2, full2, (dRem.take (m * B + B)).drop B⟩ total numIter B
        (p + (dRem.take B).length) it = _
    have hrem : (dRem.take (m * B + B)).drop B = (dRem.drop B).take (m * B) := by
      rw [List.drop_take]
      congr 1
      omega
    have hlen2 : (dRem.take B).length = B := by
      simp only [List.length_take]
      omega
    rw [hrem, hlen2]
    have := ih (dRem.drop B) full1 full2 n1 n2 numIter B total (p + B) it hB
      (by omega) (by simp only [List.length_drop]; omega)
    rw [this]
    have : p + B + m * B = p + (m * B + B) := by omega
    rw [this]

/-- When the received contents hold `j + 1` concatenated copies of the
reference contents and the chunk size equals the reference length, the loop
makes one full pass per copy, rewinding the reference after each; when the
rewind budget is exhausted it reports the reference file's name, the final
iteration count, and the processed count. -/
theorem compareLoop_cycle (j : Nat) : ∀ (d full2 : List Nat) (n1 n2 : String)
    (numIter total : Nat),
    1 ≤ d.length → j ≤ numIter →
    (numIter + 1) * d.length < total →
    compareLoop ⟨n1, d, d⟩ ⟨n2, full2, (List.replicate (j + 1) d).flatten⟩
      total numIter d.length ((numIter - j) * d.length) (numIter - j)
      = .error (.prematureEOFReference n1 numIter ((numIter + 1) * d.length)) := by
  induction j with
  | zero =>
    intro d full2 n1 n2 numIter total hd hj htotal
    rw [Nat.succ_mul] at htotal
    have hproc : (numIter - 0) * d.length = numIter * d.length := by
      congr 1
    rw [hproc]
    rw [compareLoop_step_advance
      (by omega)
      (by
        show ¬ (d.take d.length).length = 0
        simp only [List.take_length]
        omega)
      (by
        show ¬ (((List.replicate 1 d).flatten).take d.length).length = 0
        simp only [List.replicate_succ, List.flatten_cons, List.replicate_zero,
          List.flatten_nil, List.take_left]
        omega)
      (by
        show d.take d.length = ((List.replicate 1 d).flatten).take d.length
        simp only [List.replicate_succ, List.flatten_cons, List.replicate_zero,
          List.flatten_nil, List.take_left, List.take_length])]
    show compareLoop ⟨n1, d, d.drop d.length⟩
        ⟨n2, full2, ((List.replicate 1 d).flatten).drop d.length⟩ total numIter d.length
        (numIter * d.length + (d.take d.length).length) (numIter - 0) = _
    rw [compareLoop_step_refEOF
      (by simp only [List.take_length]; omega)
      (by simp only [List.drop_length]; simp)
      (by omega)]
    simp only [List.take_length]
    have h1 : numIter - 0 = numIter := by omega
    rw [h1, Nat.succ_mul]
  | succ j ih =>
    intro d full2 n1 n2 numIter total hd hj htotal
    have hflat : (List.replicate (j + 1 + 1) d).flatten =
        d ++ (List.replicate (j + 1) d).flatten := by
      rw [List.replicate_succ, List.flatten_cons]
    rw [hflat]
    rw [compareLoop_step_advance
      (by
        show (numIter - (j + 1)) * d.length < total
        calc (numIter - (j + 1)) * d.length ≤ (numIter + 1) * d.length :=
              Nat.mul_le_mul_right _ (by omega)
          _ < total := htotal)
      (by
        show ¬ (d.take d.length).length = 0
        simp only [List.take_length]
        omega)
      (by
        show ¬ ((d ++ (List.replicate (j + 1) d).flatten).take d.length).length = 0
        rw [List.take_left]
        omega)
      (by
        show d.take d.length = (d ++ (List.replicate (j + 1) d).flatten).take d.length
        rw [List.take_left, List.take_length])]
    show compareLoop ⟨n1, d, d.drop d.length⟩
        ⟨n2, full2, (d ++ (List.replicate (j + 1) d).flatten).drop d.length⟩
        total numIter d.length
        ((numIter - (j + 1)) * d.length + (d.take d.length).length)
        (numIter - (j + 1)) = _
    rw [compareLoop_step_rewind
      (by
        show (numIter - (j + 1)) * d.length + (d.take d.length).length < total
        simp only [List.take_length]
        calc (numIter - (j + 1)) * d.length + d.length
            = (numIter - (j + 1) + 1) * d.length := by rw [Nat.succ_mul]
          _ ≤ (numIter + 1) * d.length := Nat.mul_le_mul_right _ (by omega)
          _ < total := htotal)
      (by simp only [List.drop_length]; simp)
      (by omega)]
    show compareLoop ⟨n1, d, d⟩
        ⟨n2, full2, (d ++ (List.replicate (j + 1) d).flatten).drop d.length⟩
        total numIter d.length
        ((numIter - (j + 1)) * d.length + (d.take d.length).length)
        (numIter - (j + 1) + 1) = _
    rw [List.drop_left]
    simp only [List.take_length]
    have h1 : (numIter - (j + 1)) * d.length + d.length = (numIter - j) * d.length := by
      have h2 : numIter - j = (numIter - (j + 1)) + 1 := by omega
      rw [h2, Nat.succ_mul]
    have h3 : numIter - (j + 1) + 1 = numIter - j := by omega
    rw [h1, h3]
    exact ih d full2 n1 n2 numIter total hd (by omega) htotal

/-- When the two remaining contents agree on their first `c` chunks of size
`B` but their chunks number `c` (0-based) differ, the loop advances through
the `c` equal chunks and fails on chunk `c` with the data-mismatch error
carrying the processed count at the start of that chunk and both chunks. -/
theorem compareLoop_flip (c : Nat) : ∀ (u v f1 f2 : List Nat) (n1 n2 : String)
    (numIter B total p it : Nat),
    1 ≤ B →
    u.take (c * B) = v.take (c * B) →
    c * B < u.length → c * B < v.length →
    ¬ (u.drop (c * B)).take B = (v.drop (c * B)).take B →
    p + c * B < total →
    compareLoop ⟨n1, f1, u⟩ ⟨n2, f2, v⟩ total numIter B p it
      = .error (.dataMismatch (p + c * B)
          ((u.drop (c * B)).take B) ((v.drop (c * B)).take B)) := by
  induction c with
  | zero =>
    intro u v f1 f2 n1 n2 numIter B total p it hB hpre hul hvl hne hp
    simp only [Nat.zero_mul, List.drop_zero] at hne ⊢
    rw [compareLoop_step_mismatch (by omega)
      (by
        show ¬ (u.take B).length = 0
        simp only [List.length_take]
        omega)
      (by
        show ¬ (v.take B).length = 0
        simp only [List.length_take]
        omega)
      hne]
    simp
  | succ c ih =>
    intro u v f1 f2 n1 n2 numIter B total p it hB hpre hul hvl hne hp
    rw [Nat.succ_mul] at hpre hul hvl hne hp ⊢
    have hminB : min B (c * B + B) = B := by omega
    have hchunk : u.take B = v.take B := by
      have h := congrArg (List.take B) hpre
      rw [List.take_take, List.take_take, hminB] at h
      exact h
    rw [compareLoop_step_advance (by omega)
      (by
        show ¬ (u.take B).length = 0
        simp only [List.length_take]
        omega)
      (by
        show ¬ (v.take B).length = 0
        simp only [List.length_take]
        omega)
      hchunk]
    show compareLoop ⟨n1, f1, u.drop B⟩ ⟨n2, f2, v.drop B⟩ total numIter B
        (p + (u.take B).length) it = _
    have hlenB : (u.take B).length = B := by
      simp only [List.length_take]
      omega
    rw [hlenB]
    have hpre2 : (u.drop B).take (c * B) = (v.drop B).take (c * B) := by
      have h := congrArg (List.drop B) hpre
      rw [List.drop_take, List.drop_take] at h
      have he : c * B + B - B = c * B := by omega
      rw [he] at h
      exact h
    have hcomm : B + c * B = c * B + B := by omega
    have hne2 : ¬ ((u.drop B).drop (c * B)).take B = ((v.drop B).drop (c * B)).take B := by
      rw [List.drop_drop, List.drop_drop, hcomm]
      exact hne
    have := ih (u.drop B) (v.drop B) f1 f2 n1 n2 numIter B total (p + B) it hB hpre2
      (by simp only [List.length_drop]; omega)
      (by simp only [List.length_drop]; omega)
      hne2 (by omega)
    rw [this, List.drop_drop, List.drop_drop, hcomm]
    have harith : p + B + c * B = p + (c * B + B) := by omega
    rw [harith]

/-! ## Claim theorems about the mirror-mode verifier -/

/-- C3 counterexample: a received source truncated below `totalSamples`
(1 sample versus `totalSamples = 2`) with `iterations = 1` does NOT yield a
premature-EOF failure: because the truncation point is not a multiple of the
chunk size, the final short chunk `[1]` compares unequal to the reference
chunk `[1, 2]` and the run fails with the `AssertionError` (`DataMismatch`)
instead. -/
theorem compare_truncated_not_eof :
    compare (DataFile.openFile "reference" [1, 2]) (DataFile.openFile "received" [1]) 2 1 2
      = .error (.dataMismatch 0 [1, 2] [1]) := by
  show compareLoop (DataFile.openFile "reference" [1, 2]) (DataFile.openFile "received" [1])
      2 1 2 0 0 = _
  rw [compareLoop_step_mismatch (by decide) (by decide) (by decide) (by decide)]
  rfl

/-- C3 (amended): when the reference source reaches EOF before `totalSamples`
samples have been consumed, it rewinds and continues, for up to `iterations`
rewinds (hence up to `iterations + 1` passes over the source); exhausting the
rewinds before reaching `totalSamples` is a fatal premature-EOF failure naming
the reference source and the number of samples processed.  A received source
truncated at a multiple of the chunk size below `totalSamples` with
`iterations = 1` yields a premature-EOF failure naming the received source
and the number of samples processed before EOF (the truncated length). -/
theorem compare_premature_eof :
    (∀ (d : List Nat) (n1 n2 : String) (B m total : Nat),
      1 ≤ B → m * B < total → total ≤ d.length →
      compare (DataFile.openFile n1 d) (DataFile.openFile n2 (d.take (m * B))) total 1 B
        = .error (.prematureEOFReceived n2 (m * B))) ∧
    (∀ (d : List Nat) (n1 n2 : String) (numIter total : Nat),
      1 ≤ d.length → (numIter + 1) * d.length < total →
      compare (DataFile.openFile n1 d)
          (DataFile.openFile n2 ((List.replicate (numIter + 1) d).flatten))
          total numIter d.length
        = .error (.prematureEOFReference n1 numIter ((numIter + 1) * d.length))) := by
  constructor
  · intro d n1 n2 B m total hB hlt hle
    have := compareLoop_truncated m d d (d.take (m * B)) n1 n2 1 B total 0 0 hB
      (by omega) (by omega)
    simpa using this
  · intro d n1 n2 numIter total hd htotal
    have := compareLoop_cycle numIter d ((List.replicate (numIter + 1) d).flatten)
      n1 n2 numIter total hd (le_refl numIter) htotal
    simpa using this

/-- C4 counterexample: for the sources `[1, 2, 3, 4]` and `[1, 2, 9, 4]`,
equal except at the flipped sample at offset 2, verification with chunk size 4
reports the processed-sample offset 0 (the start of the chunk containing the
corruption), not the exact sample offset 2 of the corrupted sample. -/
theorem compare_flip_counterexample :
    compare (DataFile.openFile "input" [1, 2, 3, 4])
        (DataFile.openFile "output" [1, 2, 9, 4]) 4 1 4
      = .error (.dataMismatch 0 [1, 2, 3, 4] [1, 2, 9, 4]) ∧ (0 : Nat) ≠ 2 := by
  constructor
  · show compareLoop (DataFile.openFile "input" [1, 2, 3, 4])
        (DataFile.openFile "output" [1, 2, 9, 4]) 4 1 4 0 0 = _
    rw [compareLoop_step_mismatch (by decide) (by decide) (by decide) (by decide)]
    rfl
  · decide

/-- C4 (amended): for two sources equal except at one flipped sample at
offset `f`, the comparison fails with a data-mismatch error that reports the
processed-sample count at the start of the chunk containing the corrupted
sample — `f / B * B` for chunk size `B`, not the exact offset `f` itself —
together with the contents of both compared chunks. -/
theorem compare_flip (d e : List Nat) (n1 n2 : String) (f B total numIter : Nat)
    (hB : 1 ≤ B) (hlen : e.length = d.length) (hf : f < d.length)
    (hagree : ∀ j < d.length, j ≠ f → d.getD j 0 = e.getD j 0)
    (hne : d.getD f 0 ≠ e.getD f 0)
    (htotal : f / B * B < total) :
    compare (DataFile.openFile n1 d) (DataFile.openFile n2 e) total numIter B
      = .error (.dataMismatch (f / B * B)
          ((d.drop (f / B * B)).take B) ((e.drop (f / B * B)).take B)) := by
  have hdm := Nat.div_add_mod f B
  have hmod : f % B < B := Nat.mod_lt f (by omega)
  have hcomm : B * (f / B) = f / B * B := Nat.mul_comm B (f / B)
  have hcb : f / B * B ≤ f := by omega
  have hpre : d.take (f / B * B) = e.take (f / B * B) := by
    apply List.ext_getElem
    · simp only [List.length_take, hlen]
    · intro i h1 h2
      simp only [List.getElem_take]
      have hi2 : i < f / B * B := by
        simp only [List.length_take] at h1
        omega
      have hid : i < d.length := by omega
      have hie : i < e.length := by omega
      have h := hagree i hid (by omega)
      rwa [List.getD_eq_getElem?_getD, List.getD_eq_getElem?_getD,
        List.getElem?_eq_getElem hid, List.getElem?_eq_getElem hie,
        Option.getD_some, Option.getD_some] at h
  have hchunkne : ¬ (d.drop (f / B * B)).take B = (e.drop (f / B * B)).take B := by
    intro heq
    have h := congrArg (fun l => l.getD (f % B) 0) heq
    simp only [List.getD_eq_getElem?_getD] at h
    rw [List.getElem?_take_of_lt hmod, List.getElem?_take_of_lt hmod,
      List.getElem?_drop, List.getElem?_drop] at h
    have hidx : f / B * B + f % B = f := by omega
    rw [hidx] at h
    apply hne
    rw [List.getD_eq_getElem?_getD, List.getD_eq_getElem?_getD]
    exact h
  have := compareLoop_flip (f / B) d e d e n1 n2 numIter B total 0 0 hB hpre
    (by omega) (by omega) hchunkne (by omega)
  simpa using this

/-- Witness for C4: the amended theorem instantiated on the concrete sources
`[1, 2, 3, 4, 5, 6]` and `[1, 2, 3, 9, 5, 6]` (flip at offset 3) with chunk
size 2: the reported offset is `3 / 2 * 2 = 2` and the chunks `[3, 4]` and
`[3, 9]` are reported. -/
theorem compare_flip_witness :
    compare (DataFile.openFile "input" [1, 2, 3, 4, 5, 6])
        (DataFile.openFile "output" [1, 2, 3, 9, 5, 6]) 6 1 2
      = .error (.dataMismatch 2 [3, 4] [3, 9]) := by
  have := compare_flip [1, 2, 3, 4, 5, 6] [1, 2, 3, 9, 5, 6] "input" "output" 3 2 6 1
    (by decide) (by decide) (by decide) (by decide) (by decide) (by decide)
  simpa using this

/-- Witness for C3: both parts of the amended theorem instantiated on concrete
inputs — a received file truncated at chunk boundary 2 of a 4-sample
reference (chunk size 2, `totalSamples = 4`, `iterations = 1`), and a
2-sample reference cycled against two concatenated copies with
`totalSamples = 5`, `iterations = 1`. -/
theorem compare_premature_eof_witness :
    compare (DataFile.openFile "reference" [5, 6, 7, 8])
        (DataFile.openFile "received" ([5, 6, 7, 8].take (1 * 2))) 4 1 2
      = .error (.prematureEOFReceived "received" (1 * 2)) ∧
    compare (DataFile.openFile "reference" [3, 4])
        (DataFile.openFile "received" ((List.replicate (1 + 1) [3, 4]).flatten)) 5 1 2
      = .error (.prematureEOFReference "reference" 1 ((1 + 1) * 2)) := by
  constructor
  · exact compare_premature_eof.1 [5, 6, 7, 8] "reference" "received" 2 1 4
      (by decide) (by decide) (by decide)
  · have := compare_premature_eof.2 [3, 4] "reference" "received" 1 5
      (by decide) (by decide)
    simpa using this

/-! ## `aurora_loopback_host.py`: the transmit pump

```python
def tx_function(tx_streamer, tx_buffer, tx_md, timeout, files, iterations=1):
    num_chans = tx_buffer.shape[0]
    buffer_size = tx_buffer.shape[1]
    num_tx = 0
    iteration = 0
    while iteration < iterations:
        num_tx_iteration = 0
        for idx in range(num_chans):
            files[idx].seek(0)
        while True:
            for idx in range(num_chans):
                buffer = np.fromfile(files[idx], count=buffer_size, dtype=tx_buffer.dtype)
                if idx == 0:
                    buffer_len_current = len(buffer)
                else:
                    assert len(buffer) == buffer_len_current
                tx_buffer[idx, :buffer_len_current] = buffer
            if buffer_len_current == 0:
                iteration += 1
                break
            num_tx_current = 0
            while num_tx_current < buffer_len_current:
                transmitted = tx_streamer.send(
                    tx_buffer[:, num_tx_current:buffer_len_current], tx_md, timeout)
                num_tx_current += transmitted
                num_tx += transmitted
    return num_tx
```

The transport's `send` behaviour is an oracle list `grants`: its head is the
per-channel sample count the next `send` call reports as transmitted
(truncated to the requested count, since `send` never transmits more than
requested).  Python indexes channel 0 specially (it fixes
`buffer_len_current`); the embedding mirrors this with `file0` and `rest`.
An exhausted oracle means the remaining behaviour of the transport is
unspecified while the Python loop would still be calling `send`; there is
then no final result (`none`). -/

/-- The `while num_tx_current < buffer_len_current` inner loop: repeat
partial sends until the chunk is exhausted.  Returns the remaining oracle
and the number of `send` calls made. -/
def sendLoop (grants : List Nat) (remaining : Nat) : Option (List Nat × Nat) :=
  if remaining = 0 then some (grants, 0)
  else
    match grants with
    | [] => none
    | g :: gs =>
      match sendLoop gs (remaining - min g remaining) with
      | none => none
      | some (gs', n) => some (gs', n + 1)

/-- Outcome of one pass of the `while True` chunk loop over the sources. -/
inductive PassOutcome where
  | mismatch (numTx numSends : Nat) (grants : List Nat)
  | passEnd (numTx numSends : Nat) (grants : List Nat)
  deriving Repr, DecidableEq

/-- One `while True` pass: read up to `bufferSize` samples per channel,
fail with the `AssertionError` (`ChannelLengthMismatch`) when a channel's
read length differs from channel 0's — before any send of that chunk — end
the pass on a zero-length read, and otherwise drive the chunk through
`sendLoop` and continue. -/
def txPass (bufferSize : Nat) (file0 : List Nat) (rest : List (List Nat))
    (grants : List Nat) (numTx numSends : Nat) : Option PassOutcome :=
  if rest.any (fun r => (r.take bufferSize).length != (file0.take bufferSize).length) then
    some (.mismatch numTx numSends grants)
  else if hlen : (file0.take bufferSize).length = 0 then
    some (.passEnd numTx numSends grants)
  else
    match sendLoop grants (file0.take bufferSize).length with
    | none => none
    | some (grants', n) =>
      txPass bufferSize (file0.drop bufferSize) (rest.map (List.drop bufferSize))
        grants' (numTx + (file0.take bufferSize).length) (numSends + n)
  termination_by file0.length
  decreasing_by
    simp only [List.length_take, List.length_drop] at hlen ⊢
    omega

/-- The observable result of `tx_function`: the returned `num_tx` (with the
number of `send` calls made) or the `AssertionError` abort. -/
inductive TxResult where
  | channelLengthMismatch (numTx numSends : Nat)
  | finished (numTx numSends : Nat)
  deriving Repr, DecidableEq

/-- The `while iteration < iterations` outer loop, counting down the
remaining iterations; each pass restarts from the start of every source
(`seek(0)`). -/
def txIterLoop (bufferSize : Nat) (file0 : List Nat) (rest : List (List Nat)) :
    Nat → List Nat → Nat → Nat → Option TxResult
  | 0, _, numTx, numSends => some (.finished numTx numSends)
  | n + 1, grants, numTx, numSends =>
    match txPass bufferSize file0 rest grants numTx numSends with
    | none => none
    | some (.mismatch numTx' numSends' _) => some (.channelLengthMismatch numTx' numSends')
    | some (.passEnd numTx' numSends' grants') =>
      txIterLoop bufferSize file0 rest n grants' numTx' numSends'

/-- `tx_function`: stream every source `iterations` times, starting with
`num_tx = 0`. -/
def tx_function (bufferSize : Nat) (file0 : List Nat) (rest : List (List Nat))
    (iterations : Nat) (grants : List Nat) : Option TxResult :=
  txIterLoop bufferSize file0 rest iterations grants 0 0

/-! ### Facts about the transmit pump -/

/-- With a positive oracle (every `send` transmits at least one sample) that
is long enough, the inner send loop drives any chunk to completion: it makes
between 1 and `remaining` send calls (at least one when the chunk is
non-empty) and consumes exactly that many oracle entries. -/
theorem sendLoop_complete : ∀ (grants : List Nat) (remaining : Nat),
    (∀ g ∈ grants, 1 ≤ g) → remaining ≤ grants.length →
    ∃ gs' n, sendLoop grants remaining = some (gs', n) ∧
      (∀ g ∈ gs', 1 ≤ g) ∧ n ≤ remaining ∧ grants.length = n + gs'.length ∧
      (1 ≤ remaining → 1 ≤ n) := by
  intro grants
  induction grants with
  | nil =>
    intro remaining hpos hlen
    have h0 : remaining = 0 := by simpa using hlen
    subst h0
    exact ⟨[], 0, rfl, hpos, Nat.le_refl 0, by omega, by omega⟩
  | cons g gs ih =>
    intro remaining hpos hlen
    by_cases h0 : remaining = 0
    · subst h0
      exact ⟨g :: gs, 0, rfl, hpos, Nat.le_refl 0, by omega, by omega⟩
    · have hg : 1 ≤ g := hpos g (by simp)
      obtain ⟨gs', n, heq, hpos', hle, hlen', hone⟩ :=
        ih (remaining - min g remaining)
          (fun x hx => hpos x (by simp [hx]))
          (by simp only [List.length_cons] at hlen; omega)
      refine ⟨gs', n + 1, ?_, hpos', by omega, ?_, by omega⟩
      · rw [sendLoop, if_neg h0]
        show (match sendLoop gs (remaining - min g remaining) with
          | none => none
          | some (gs', n) => some (gs', n + 1)) = _
        rw [heq]
      · simp only [List.length_cons]
        omega

/-- With a positive, long-enough oracle, a single-channel pass transmits the
whole source: it ends with `num_tx` increased by the source length, using at
least `⌈length / B⌉` and at most `length` send calls. -/
theorem txPass_single (N : Nat) : ∀ (d : List Nat), d.length ≤ N →
    ∀ (B : Nat) (grants : List Nat) (numTx numSends : Nat),
    1 ≤ B → (∀ g ∈ grants, 1 ≤ g) → d.length ≤ grants.length →
    ∃ grants' s, txPass B d [] grants numTx numSends
        = some (.passEnd (numTx + d.length) (numSends + s) grants') ∧
      (d.length + B - 1) / B ≤ s ∧ s ≤ d.length := by
  induction N with
  | zero =>
    intro d hd B grants numTx numSends hB hpos hlen
    have hnil : d = [] := List.eq_nil_of_length_eq_zero (by omega)
    subst hnil
    refine ⟨grants, 0, ?_, ?_, Nat.le_refl 0⟩
    · rw [txPass]
      simp
    · have : B - 1 < B := by omega
      simp [Nat.div_eq_of_lt this]
  | succ N ih =>
    intro d hd B grants numTx numSends hB hpos hlen
    by_cases hnil : d.length = 0
    · have hdnil : d = [] := List.eq_nil_of_length_eq_zero hnil
      subst hdnil
      refine ⟨grants, 0, ?_, ?_, Nat.le_refl 0⟩
      · rw [txPass]
        simp
      · have : B - 1 < B := by omega
        simp [Nat.div_eq_of_lt this]
    · have h1 : 1 ≤ d.length := by omega
      have hchunklen : (d.take B).length = min B d.length := List.length_take B d
      obtain ⟨gs', n, heq, hpos', hle, hlen', hone⟩ :=
        sendLoop_complete grants (d.take B).length hpos (by omega)
      have hone' : 1 ≤ n := hone (by omega)
      obtain ⟨g2, s2, heq2, hceil2, hs2⟩ :=
        ih (d.drop B) (by simp only [List.length_drop]; omega) B gs'
          (numTx + (d.take B).length) (numSends + n) hB hpos'
          (by simp only [List.length_drop]; omega)
      refine ⟨g2, n + s2, ?_, ?_, by simp only [List.length_drop] at hs2 ⊢; omega⟩
      · rw [txPass]
        rw [if_neg (by simp), dif_neg (by omega)]
        show (match sendLoop grants (d.take B).length with
          | none => none
          | some (grants', n) =>
            txPass B (d.drop B) (List.map (List.drop B) []) grants'
              (numTx + (d.take B).length) (numSends + n)) = _
        rw [heq]
        show txPass B (d.drop B) (List.map (List.drop B) []) gs'
            (numTx + (d.take B).length) (numSends + n) = _
        have e1 : numTx + d.length = numTx + (d.take B).length + (d.drop B).length := by
          simp only [List.length_take, List.length_drop]
          omega
        have e2 : numSends + (n + s2) = numSends + n + s2 := by omega
        rw [e1, e2]
        exact heq2
      · rcases Nat.lt_or_ge d.length B with hsmall | hbig
        · have hd1 : (d.length + B - 1) / B = 1 := by
            apply Nat.div_eq_of_lt_le

            · omega
            · omega
          omega
        · have hdrop : (d.drop B).length = d.length - B := List.length_drop B d
          rw [hdrop] at hceil2
          have hsum : d.length + B - 1 = (d.length - B + B - 1) + B := by omega
          rw [hsum, Nat.add_div_right _ (by omega)]
          omega

/-! ## Claim theorems about the transmit pump -/

/-- C5: with a single iteration, a source of `S` samples and a buffer
capacity `B < S`, the pump transmits the source completely — the returned
total equals `S` — using at least `⌈S / B⌉` send calls, where each chunk is
driven to completion by repeated partial sends.  The oracle hypotheses state
that every send call transmits at least one sample and that the transport's
behaviour is specified for enough send calls. -/
theorem tx_function_chunking (d : List Nat) (B : Nat) (grants : List Nat)
    (hB : 1 ≤ B) (hBS : B < d.length) (hpos : ∀ g ∈ grants, 1 ≤ g)
    (henough : d.length ≤ grants.length) :
    ∃ numSends, tx_function B d [] 1 grants = some (.finished d.length numSends) ∧
      (d.length + B - 1) / B ≤ numSends := by
  obtain ⟨g', s, heq, hceil, hs⟩ :=
    txPass_single d.length d (Nat.le_refl _) B grants 0 0 hB hpos henough
  refine ⟨s, ?_, hceil⟩
  show txIterLoop B d [] 1 grants 0 0 = _
  rw [txIterLoop]
  rw [heq]
  show txIterLoop B d [] 0 g' (0 + d.length) (0 + s) = _
  rw [txIterLoop]
  simp

/-- Witness for C5: a 3-sample source with buffer capacity 2 and an oracle
that transmits one sample per call is fully transmitted with at least
`⌈3 / 2⌉ = 2` send calls. -/
theorem tx_function_chunking_witness :
    ∃ numSends, tx_function 2 [10, 20, 30] [] 1 [1, 1, 1] = some (.finished 3 numSends) ∧
      (3 + 2 - 1) / 2 ≤ numSends := by
  have := tx_function_chunking [10, 20, 30] 2 [1, 1, 1] (by decide) (by decide)
    (by decide) (by decide)
  simpa using this

/-- C6: with two channels, if within one chunk the per-channel reads yield
unequal sample counts, the pass fails with the `AssertionError`
(`ChannelLengthMismatch`) before any send of that chunk is issued: the
outcome carries the incoming `num_tx`, send count, and oracle unchanged.
Consequently a fresh pump run over two sources whose first reads differ
aborts with `ChannelLengthMismatch` after zero sends. -/
theorem tx_channel_length_mismatch (B : Nat) (d1 d2 : List Nat) (grants : List Nat)
    (numTx numSends : Nat)
    (hne : (d1.take B).length ≠ (d2.take B).length) :
    txPass B d1 [d2] grants numTx numSends = some (.mismatch numTx numSends grants) ∧
    ∀ n : Nat, tx_function B d1 [d2] (n + 1) grants = some (.channelLengthMismatch 0 0) := by
  have hpass : ∀ nt ns : Nat, txPass B d1 [d2] grants nt ns
      = some (.mismatch nt ns grants) := by
    intro nt ns
    rw [txPass]
    rw [if_pos (by
      simp only [List.any_cons, List.any_nil, Bool.or_false, bne_iff_ne]
      exact fun h => hne h.symm)]
  refine ⟨hpass numTx numSends, fun n => ?_⟩
  show txIterLoop B d1 [d2] (n + 1) grants 0 0 = _
  rw [txIterLoop, hpass 0 0]

/-- Witness for C6: feeding a 1-sample and a 3-sample source into one pump
pass with buffer capacity 2 (reads of length 1 versus 2) aborts with the
channel-length mismatch, leaving the mid-run counters (7 samples, 3 sends)
and the oracle untouched. -/
theorem tx_channel_length_mismatch_witness :
    txPass 2 [1] [[1, 2, 3]] [5, 5] 7 3 = some (.mismatch 7 3 [5, 5]) ∧
    tx_function 2 [1] [[1, 2, 3]] 1 [5, 5] = some (.channelLengthMismatch 0 0) := by
  have h := tx_channel_length_mismatch 2 [1] [1, 2, 3] [5, 5] 7 3 (by decide)
  exact ⟨h.1, h.2 0⟩

/-! ## `aurora_loopback_host.py`: the receive pump

```python
def rx_function(rx_streamer, rx_buffer, rx_md, timeout, files, num_samples):
    num_chans = rx_buffer.shape[0]
    num_rx = 0
    reported_overflow = False
    while num_rx < num_samples:
        received = rx_streamer.recv(rx_buffer, rx_md, timeout)
        num_rx += received
        for idx in range(num_chans):
            rx_buffer[idx, :received].tofile(files[idx])
        if rx_md.error_code == uhd.types.RXMetadataErrorCode.timeout:
            print("RX timeout")
            return num_rx
        if rx_md.error_code == uhd.types.RXMetadataErrorCode.overflow:
            if not reported_overflow:
                error_name = "out-of-sequence" if rx_md.out_of_sequence \
                    else rx_md.error_code.name
                print(f"Got an {error_name} indication.")
                reported_overflow = True
        if rx_md.error_code != uhd.types.RXMetadataErrorCode.none:
            print(f"Got an error indication: {rx_md.strerror()}")
            return num_rx
    return num_rx
```

The transport's `recv` behaviour is an oracle list of events: each call
reports a received sample count and fills the metadata's error code and
out-of-sequence flag.  An exhausted oracle models unspecified further
transport behaviour (`none`). -/

/-- `uhd.types.RXMetadataErrorCode`, collapsed to the codes the pump
distinguishes (`other` stands for every remaining code). -/
inductive RXMetadataErrorCode where
  | none
  | timeout
  | overflow
  | other
  deriving Repr, DecidableEq

/-- One `recv` call's observable outcome. -/
structure RxEvent where
  received : Nat
  errorCode : RXMetadataErrorCode
  outOfSequence : Bool
  deriving Repr, DecidableEq

/-- The log lines `rx_function` can print, with the interpolated values. -/
inductive RxLog where
  | rxTimeout
  | overflowIndication (outOfSequence : Bool)
  | errorIndication
  deriving Repr, DecidableEq

/-- The observable result of `rx_function`: the returned `num_rx` and the
printed log. -/
structure RxResult where
  numRx : Nat
  log : List RxLog
  deriving Repr, DecidableEq

/-- The `while num_rx < num_samples` loop of `rx_function`. -/
def rxLoop : List RxEvent → Nat → Nat → Bool → List RxLog → Option RxResult
  | events, numSamples, numRx, reportedOverflow, log =>
    if numRx < numSamples then
      match events with
      | [] => none
      | e :: rest =>
        if e.errorCode = .timeout then
          some { numRx := numRx + e.received, log := log ++ [.rxTimeout] }
        else
          let reportedOverflow1 :=
            if e.errorCode = .overflow ∧ ¬ reportedOverflow then true
            else reportedOverflow
          let log1 :=
            if e.errorCode = .overflow ∧ ¬ reportedOverflow then
              log ++ [.overflowIndication e.outOfSequence]
            else log
          if e.errorCode ≠ .none then
            some { numRx := numRx + e.received, log := log1 ++ [.errorIndication] }
          else
            rxLoop rest numSamples (numRx + e.received) reportedOverflow1 log1
    else
      some { numRx := numRx, log := log }

/-- `rx_function`: pull from the transport until `num_samples` samples are
accumulated or a terminating condition is hit, starting with `num_rx = 0`
and no overflow reported yet. -/
def rx_function (events : List RxEvent) (numSamples : Nat) : Option RxResult :=
  rxLoop events numSamples 0 false []

/-! ## Claim theorem about the receive pump -/

/-- C1 (code behaviour at the failing input): a receive run whose transport
reports one `Overflow` (100 samples) followed by a clean read (900 samples)
toward a target of 1000 does NOT continue after the overflow: the overflow
is logged, but the subsequent `error_code != none` check also matches
`Overflow` and returns, so the pump terminates with the partial count 100
instead of streaming on to 1000.  The `reported_overflow` first-occurrence
flag is thereby dead logic: control never reaches a second overflow. -/
theorem rx_function_overflow_terminates :
    rx_function [{ received := 100, errorCode := .overflow, outOfSequence := false },
                 { received := 900, errorCode := .none, outOfSequence := false }] 1000
      = some { numRx := 100, log := [.overflowIndication false, .errorIndication] } ∧
    (100 : Nat) ≠ 1000 := by
  constructor
  · decide
  · decide

end RfnocExamples
